import Mathlib

/-!
Shallow embedding of `src/Study_Group_Finder.py` (Student Group Management System).

Conventions of the embedding:
* Python linked lists (waiting queues, member rosters, the group chain) are
  modelled as Lean `List`s in the same order (head of the linked list = head
  of the `List`); appending at the tail pointer becomes `++ [x]`.
* Python `int` becomes `Int`; scores (`marks`) and session ratings are Python
  numbers and become `ℚ`.
* Methods that can raise a Python exception are modelled in `Except String`;
  methods that return `None` on a normal "not available" outcome use `Option`.
* `random.shuffle` is modelled by passing the shuffled list as an explicit
  argument; theorems quantify over all permutations of the collected pool.
-/

/-- Performance label of a student, the Python strings "low"/"mid"/"high". -/
inductive Label where
  | low
  | mid
  | high
deriving DecidableEq, Repr

/-- Label derivation rule used by `MemberNode.__init__` and
`MemberNode.update_marks`: `marks < 40 → low`, `40 ≤ marks < 75 → mid`,
`marks ≥ 75 → high`. -/
def labelOf (marks : ℚ) : Label :=
  if marks < 40 then Label.low
  else if marks < 75 then Label.mid
  else Label.high

/-- Embedding of `MemberNode`: one student inside a group roster.  The Python `next`
pointer is absorbed by the surrounding `List`.  Python also stores a `label`
field; every write to it (the constructor and `update_marks`) sets it to the
value derived from `marks`, so it is modelled as the derived function
`MemberNode.label` below. -/
structure MemberNode where
  name : String
  marks : ℚ
  preferred_language : String
  student_id : Int
deriving DecidableEq, Repr

/-- The stored `label` field of a `MemberNode`; always equal to the value
derived from the current marks (set in `__init__`, re-set in `update_marks`). -/
def MemberNode.label (m : MemberNode) : Label :=
  labelOf m.marks

/-- Embedding of `MemberNode.update_marks`: overwrite `marks` and re-derive the label. -/
def MemberNode.update_marks (m : MemberNode) (new_marks : ℚ) : MemberNode :=
  { m with marks := new_marks }

/-- Embedding of `WaitingListNode`: one student in a waiting queue. -/
structure WaitingListNode where
  student_id : Int
  name : String
  marks : ℚ
  preferred_language : String
deriving DecidableEq, Repr

/-- Embedding of `WaitingList`: a FIFO queue of students, head of the list = front of the
queue (the node the Python `head` pointer reaches first). -/
abbrev WaitingList : Type := List WaitingListNode

/-- The empty waiting list (`WaitingList.__init__`). -/
def WaitingList.emptyList : WaitingList := []

/-- Embedding of `WaitingList.is_empty`. -/
def WaitingList.is_empty (q : WaitingList) : Bool :=
  match q with
  | [] => true
  | _ :: _ => false

/-- Embedding of `WaitingList.enqueue`: create a node from the four fields and link it at
the tail. -/
def WaitingList.enqueue (q : WaitingList) (student_id : Int) (name : String)
    (marks : ℚ) (preferred_language : String) : WaitingList :=
  q ++ [⟨student_id, name, marks, preferred_language⟩]

/-- Embedding of `WaitingList.dequeue`: remove and return the head node; `(none, q)` when
the queue is empty (Python returns `None`). -/
def WaitingList.dequeue (q : WaitingList) : Option WaitingListNode × WaitingList :=
  match q with
  | [] => (none, [])
  | s :: rest => (some s, rest)

/-- Embedding of `Member`: a group roster, a linked list of `MemberNode`s plus the running
counters maintained by `add_member` / `delete_member`. -/
structure Member where
  members : List MemberNode
  number_of_members : Int
  count_low : Int
  count_mid : Int
  count_high : Int
deriving DecidableEq, Repr

/-- A fresh roster (`Member.__init__`): empty list, all counters zero. -/
def Member.emptyList : Member := ⟨[], 0, 0, 0, 0⟩

/-- Embedding of `Member.is_empty`. -/
def Member.is_empty (ml : Member) : Bool :=
  ml.members.isEmpty

/-- Number of roster members carrying a given label (the live tally that the
counters are supposed to track). -/
def countLabel (l : List MemberNode) (lab : Label) : Nat :=
  l.countP (fun m => m.label == lab)

/-- Embedding of `Member.add_member`: create a node from the four fields, append it at the
tail, bump `number_of_members` and the counter matching the new node's label
(`if low / elif mid / else high`). -/
def Member.add_member (ml : Member) (name : String) (marks : ℚ)
    (preferred_language : String) (student_id : Int) : Member :=
  let new_member : MemberNode := ⟨name, marks, preferred_language, student_id⟩
  { members := ml.members ++ [new_member]
    number_of_members := ml.number_of_members + 1
    count_low := if new_member.label = Label.low then ml.count_low + 1 else ml.count_low
    count_mid := if new_member.label = Label.mid then ml.count_mid + 1 else ml.count_mid
    count_high :=
      if new_member.label ≠ Label.low ∧ new_member.label ≠ Label.mid then
        ml.count_high + 1
      else ml.count_high }

/-- Remove the first node with the given id, returning it and the remaining
list (`none` when no node matches). -/
def removeFirstById : List MemberNode → Int → Option (MemberNode × List MemberNode)
  | [], _ => none
  | x :: xs, sid =>
    if x.student_id = sid then some (x, xs)
    else
      match removeFirstById xs sid with
      | none => none
      | some (y, ys) => some (y, x :: ys)

/-- Embedding of `Member.delete_member`: unlink the first node with the given id,
decrement the counter matching its label and `number_of_members`; returns
`false` and leaves the roster unchanged when the id is absent. -/
def Member.delete_member (ml : Member) (student_id : Int) : Member × Bool :=
  match removeFirstById ml.members student_id with
  | none => (ml, false)
  | some (node, rest) =>
    ({ members := rest
       number_of_members := ml.number_of_members - 1
       count_low := if node.label = Label.low then ml.count_low - 1 else ml.count_low
       count_mid := if node.label = Label.mid then ml.count_mid - 1 else ml.count_mid
       count_high :=
         if node.label ≠ Label.low ∧ node.label ≠ Label.mid then
           ml.count_high - 1
         else ml.count_high }, true)

/-- Embedding of `Member.search_member_id`: first node with the given id, if any. -/
def Member.search_member_id (ml : Member) (member_id : Int) : Option MemberNode :=
  ml.members.find? (fun m => m.student_id == member_id)

/-- Embedding of `Member.merge_members`: splice the second list onto the first, count the
labels of the combined list, and return it only when the combined counts are
exactly 2 high / 3 mid / 2 low.  NOTE the Python method physically splices
(`a.next = mem2`) before validating, so even on the `None` return the list
reachable from `mem1` is already the concatenation; `Groups.merge_groups`
below accounts for that side effect. -/
def Member.merge_members (mem1 mem2 : List MemberNode) : Option (List MemberNode) :=
  let merged := mem1 ++ mem2
  let h := countLabel merged Label.high
  let m := countLabel merged Label.mid
  let l := countLabel merged Label.low
  if h ≠ 2 ∨ m ≠ 3 ∨ l ≠ 2 then none else some merged

/-- Counter/roster agreement: each counter equals the live tally of members
carrying that label, and `number_of_members` is the sum of the counters
(the data-model invariant of §4.2 of the spec). -/
def Member.wellFormed (ml : Member) : Prop :=
  ml.count_low = (countLabel ml.members Label.low : Int) ∧
  ml.count_mid = (countLabel ml.members Label.mid : Int) ∧
  ml.count_high = (countLabel ml.members Label.high : Int) ∧
  ml.number_of_members = ml.count_low + ml.count_mid + ml.count_high

/-- Embedding of `GroupListNode`: one group — id, roster, session-rating history and the
(unused) per-node counters the Python constructor initialises. -/
structure GroupListNode where
  group_id : Int
  member_list : Member
  session_rating : List ℚ
  count_low : Int
  count_mid : Int
  count_high : Int
  is_custom : Bool
  number_of_members : Int
deriving DecidableEq, Repr

/-- A freshly constructed group node (`GroupListNode.__init__`). -/
def mkGroupListNode (group_id : Int) : GroupListNode :=
  ⟨group_id, Member.emptyList, [], 0, 0, 0, false, 0⟩

/-- Embedding of `GroupListNode.calc_avg_rating`: arithmetic mean of the session ratings,
`0` for an empty history. -/
def GroupListNode.calc_avg_rating (g : GroupListNode) : ℚ :=
  if g.session_rating.isEmpty then 0
  else g.session_rating.sum / (g.session_rating.length : ℚ)

/-- Embedding of `Groups`: the directory owning all groups of one language, with the three
tier waiting queues and the linked list of group nodes. -/
structure Groups where
  language_value : String
  no_of_groups : Int
  waiting_list_low : WaitingList
  waiting_list_mid : WaitingList
  waiting_list_high : WaitingList
  groups : List GroupListNode
deriving DecidableEq, Repr

/-- A fresh directory (`Groups.__init__`). -/
def Groups.init (language : String) : Groups :=
  ⟨language, 0, [], [], [], []⟩

/-- Embedding of `Groups.add_new_group`: link a fresh node at the tail of the group list
and bump the group counter. -/
def Groups.add_new_group (st : Groups) (group_id : Int) : Groups × GroupListNode :=
  let new_group := mkGroupListNode group_id
  ({ st with groups := st.groups ++ [new_group]
             no_of_groups := st.no_of_groups + 1 }, new_group)

/-- Embedding of `Groups.search_group_id`: first group node with the given id. -/
def Groups.search_group_id (st : Groups) (group_id : Int) : Option GroupListNode :=
  st.groups.find? (fun g => g.group_id == group_id)

/-- Replace the first group node with the given id by `f` applied to it
(the mutation Python performs through the node pointer found by
`search_group_id`). -/
def updateFirstById (l : List GroupListNode) (gid : Int)
    (f : GroupListNode → GroupListNode) : List GroupListNode :=
  match l with
  | [] => []
  | g :: gs =>
    if g.group_id = gid then f g :: gs else g :: updateFirstById gs gid f

/-- State-level version of `updateFirstById`. -/
def Groups.updateGroup (st : Groups) (gid : Int)
    (f : GroupListNode → GroupListNode) : Groups :=
  { st with groups := updateFirstById st.groups gid f }

/-- Embedding of `Groups.remove_group`: clear the first matching group's roster and
counters (the node and its id survive as a vacant slot); `false` when the id
is absent. -/
def Groups.remove_group (st : Groups) (group_id : Int) : Groups × Bool :=
  if st.groups.any (fun g => g.group_id == group_id) then
    (st.updateGroup group_id (fun g => { g with member_list := Member.emptyList }), true)
  else (st, false)

/-- Embedding of `Groups.classify_groups`: partition the group list into the groups with
exactly 7 members (`L1`) and all others (`L2`), preserving list order (the
Python loop appends to the two lists in traversal order). -/
def Groups.classify_groups (st : Groups) : List GroupListNode × List GroupListNode :=
  (st.groups.filter (fun g => g.member_list.number_of_members == 7),
   st.groups.filter (fun g => !(g.member_list.number_of_members == 7)))

/-- One step of the reshuffle redistribution loop (the body of the Python
`while True`).  A member goes to group 1 while the tier counter of its label
is below quota (2 low / 3 mid / 2 high); otherwise the `else` branch sends it
to group 2 (each of the three inner conditions is satisfied by the member's
own label, so every overflow member lands in group 2). -/
def distributeLoop : List MemberNode → Member → Member → Nat → Nat → Nat → Member × Member
  | [], m1, m2, _, _, _ => (m1, m2)
  | x :: rest, m1, m2, cl, cm, ch =>
    if x.label = Label.low ∧ cl < 2 then
      distributeLoop rest
        (m1.add_member x.name x.marks x.preferred_language x.student_id) m2 (cl + 1) cm ch
    else if x.label = Label.mid ∧ cm < 3 then
      distributeLoop rest
        (m1.add_member x.name x.marks x.preferred_language x.student_id) m2 cl (cm + 1) ch
    else if x.label = Label.high ∧ ch < 2 then
      distributeLoop rest
        (m1.add_member x.name x.marks x.preferred_language x.student_id) m2 cl cm (ch + 1)
    else
      distributeLoop rest m1
        (m2.add_member x.name x.marks x.preferred_language x.student_id) cl cm ch

/-- Result of `Groups.reshuffle`: `notFound` is the Python `(False, None,
None)` return, `indexError` the `members.pop()` crash on an empty pool, `ok`
carries the updated directory. -/
inductive ReshuffleResult where
  | notFound
  | indexError
  | ok (st : Groups)
deriving DecidableEq, Repr

/-- Embedding of `Groups.reshuffle`: collect both rosters into one pool (group 1's members
first), shuffle, clear both rosters and counters, then redistribute.
`shuffled` is the pool after `random.shuffle`; the loop pops from the end of
the list, i.e. processes `shuffled.reverse`.  Python does not terminate when
the two ids name the same node; the embedding assumes distinct ids (as every
caller in the source provides). -/
def Groups.reshuffle (st : Groups) (group1_id group2_id : Int)
    (shuffled : List MemberNode) : ReshuffleResult :=
  match st.search_group_id group1_id, st.search_group_id group2_id with
  | some _, some _ =>
    match shuffled with
    | [] => ReshuffleResult.indexError
    | _ :: _ =>
      let dist := distributeLoop shuffled.reverse Member.emptyList Member.emptyList 0 0 0
      let st1 := st.updateGroup group1_id (fun g => { g with member_list := dist.1 })
      let st2 := st1.updateGroup group2_id (fun g => { g with member_list := dist.2 })
      ReshuffleResult.ok st2
  | _, _ => ReshuffleResult.notFound

/-- Embedding of `Groups.merge_groups`: call `merge_members` on the two rosters; on
success point group 1's roster at the combined list (counters untouched) and
clear group 2; on failure return `false` — but the splice performed inside
`merge_members` persists, so group 1's roster is the concatenation even then.
Dereferencing a missing group (or the last node of an empty first roster)
raises in Python, modelled as `Except.error`. -/
def Groups.merge_groups (st : Groups) (group_id_1 group_id_2 : Int) :
    Except String (Groups × Bool) :=
  match st.search_group_id group_id_1, st.search_group_id group_id_2 with
  | some group1, some group2 =>
    match group1.member_list.members with
    | [] => Except.error "AttributeError"
    | _ :: _ =>
      let spliced := group1.member_list.members ++ group2.member_list.members
      let stSpliced := st.updateGroup group_id_1
        (fun g => { g with member_list := { g.member_list with members := spliced } })
      match Member.merge_members group1.member_list.members group2.member_list.members with
      | some stu =>
        let st1 := stSpliced.updateGroup group_id_1
          (fun g => { g with member_list := { g.member_list with members := stu } })
        ((st1.remove_group group2.group_id).1, true) |> Except.ok
      | none => Except.ok (stSpliced, false)
  | _, _ => Except.error "AttributeError"

/-- Fold `add_member` over a list of dequeued waiting students. -/
def addStudents (ml : Member) (ss : List WaitingListNode) : Member :=
  ss.foldl (fun acc s => acc.add_member s.name s.marks s.preferred_language s.student_id) ml

/-- The seven `add_member` calls of `create_new_group`: 2 high, 3 mid, 2 low,
in that order. -/
def addSeven (ml : Member) (highs mids lows : List WaitingListNode) : Member :=
  addStudents (addStudents (addStudents ml highs) mids) lows

/-- Fill the roster of the first group with an empty roster (the node Python
finds with `member_list.is_empty()` and then mutates); `none` when every
group is non-empty. -/
def fillFirstEmpty (l : List GroupListNode) (fill : Member → Member) :
    Option (List GroupListNode × GroupListNode) :=
  match l with
  | [] => none
  | g :: gs =>
    if g.member_list.is_empty then
      let g2 := { g with member_list := fill g.member_list }
      some (g2 :: gs, g2)
    else
      match fillFirstEmpty gs fill with
      | none => none
      | some (gs2, gg) => some (g :: gs2, gg)

/-- Embedding of `Groups.create_new_group`: count the three queues; when at least
2 high / 3 mid / 2 low are waiting, reuse the first empty group (else append
a fresh node with id `no_of_groups + 1`), dequeue 2 high, 3 mid and 2 low
students in that order and add each to the roster; if the roster then does
not hold exactly 7 members, decrement `no_of_groups` and return `none`.
Python appends an empty node and then mutates it; the embedding appends the
already-filled node, and performs the (pure) queue counting and empty-group
scan in the same states Python reads them from. -/
def Groups.create_new_group (st : Groups) : Groups × Option GroupListNode :=
  let high_count := st.waiting_list_high.length
  let mid_count := st.waiting_list_mid.length
  let low_count := st.waiting_list_low.length
  if 2 ≤ high_count ∧ 3 ≤ mid_count ∧ 2 ≤ low_count then
    let highs := st.waiting_list_high.take 2
    let mids := st.waiting_list_mid.take 3
    let lows := st.waiting_list_low.take 2
    let stq : Groups := { st with
      waiting_list_high := st.waiting_list_high.drop 2
      waiting_list_mid := st.waiting_list_mid.drop 3
      waiting_list_low := st.waiting_list_low.drop 2 }
    let filled :=
      match fillFirstEmpty stq.groups (fun ml => addSeven ml highs mids lows) with
      | some (gs, g) => ({ stq with groups := gs }, g)
      | none =>
        let g := { mkGroupListNode (stq.no_of_groups + 1) with
                   member_list := addSeven Member.emptyList highs mids lows }
        ({ stq with groups := stq.groups ++ [g]
                    no_of_groups := stq.no_of_groups + 1 }, g)
    if filled.2.member_list.number_of_members ≠ 7 then
      ({ filled.1 with no_of_groups := filled.1.no_of_groups - 1 }, none)
    else (filled.1, some filled.2)
  else (st, none)

/-- Python `current.group_id not in li` membership test: an `int` is compared
with `GroupListNode` objects, and `int == node` is always `False` in Python,
so the test never finds the id in the list. -/
def idInNodeList (_i : Int) (l : List GroupListNode) : Bool :=
  l.any (fun _ => false)

/-- The merge-eligibility sum of `possible_merging`: each of the candidate
partner's own three counters added to itself, i.e. twice the partner's own
size — the reference's doubled formula (§9 of the spec). -/
def doubledSum (g : GroupListNode) : Int :=
  (g.member_list.count_high + g.member_list.count_high) +
  (g.member_list.count_mid + g.member_list.count_mid) +
  (g.member_list.count_low + g.member_list.count_low)

/-- Inner loop body of `possible_merging`: for a candidate partner (a group
strictly before `current` in the chain), merge when the doubled sum is 7.
Python would raise if a looked-up group vanished; group nodes are never
unlinked, so that branch is unreachable and modelled as a no-op. -/
def Groups.mergeSweepInner (cid : Int) (s : Groups) (currId : Int) : Groups :=
  match s.search_group_id currId with
  | none => s
  | some curr =>
    if doubledSum curr = 7 then
      match s.merge_groups cid currId with
      | Except.ok p => p.1
      | Except.error _ => s
    else s

/-- Embedding of `Groups.possible_merging`: for every group in the chain (the guard
`current.group_id not in li` is vacuously true, see `idInNodeList`), walk the
groups before it and merge whenever `doubledSum` equals 7.  The chain of
group ids is fixed during the sweep (merging only clears rosters). -/
def Groups.possible_merging (st : Groups) : Groups :=
  let li := st.classify_groups.2
  let ids := st.groups.map (fun g => g.group_id)
  ids.foldl
    (fun s cid =>
      if !(idInNodeList cid li) then
        (ids.takeWhile (fun i => !(i == cid))).foldl (Groups.mergeSweepInner cid) s
      else s)
    st

/-- Embedding of `Groups.delete_member`: look up the group and the member (both raise
`AttributeError` in Python when absent), dequeue one waiting student of the
member's tier and add them to the group if available, unlink the departing
member, then run the merge-eligibility sweep. -/
def Groups.delete_member (st : Groups) (group_id member_id : Int) :
    Except String Groups :=
  match st.search_group_id group_id with
  | none => Except.error "AttributeError"
  | some group =>
    match group.member_list.search_member_id member_id with
    | none => Except.error "AttributeError"
    | some node =>
      let dq :=
        match node.label with
        | Label.high =>
          let d := WaitingList.dequeue st.waiting_list_high
          (d.1, { st with waiting_list_high := d.2 })
        | Label.mid =>
          let d := WaitingList.dequeue st.waiting_list_mid
          (d.1, { st with waiting_list_mid := d.2 })
        | Label.low =>
          let d := WaitingList.dequeue st.waiting_list_low
          (d.1, { st with waiting_list_low := d.2 })
      let st2 :=
        match dq.1 with
        | some s =>
          dq.2.updateGroup group_id (fun g =>
            { g with member_list :=
                g.member_list.add_member s.name s.marks s.preferred_language s.student_id })
        | none => dq.2
      let st3 := st2.updateGroup group_id
        (fun g => { g with member_list := (g.member_list.delete_member member_id).1 })
      Except.ok st3.possible_merging

/-- First phase of `condition_checker`: over the snapshot `L1` of full
groups, remove (clear) every group whose composition is not exactly 2/3/2 and
whose average rating is below 2, and collect into the worklist `L` the ids of
the groups with exact 2/3/2 composition and average rating below 2.  Python
iterates over the node objects of `L1` while mutating other nodes; the
embedding re-reads each node by id from the evolving state. -/
def Groups.sweepPhase1 (st : Groups) : Groups × List Int :=
  (st.classify_groups.1.map (fun g => g.group_id)).foldl
    (fun acc gid =>
      match acc.1.search_group_id gid with
      | none => acc
      | some group =>
        if group.member_list.count_high ≠ 2 ∨ group.member_list.count_mid ≠ 3 ∨
            group.member_list.count_low ≠ 2 then
          if group.calc_avg_rating < 2 then ((acc.1.remove_group gid).1, acc.2) else acc
        else
          if group.calc_avg_rating < 2 then (acc.1, acc.2 ++ [gid]) else acc)
    (st, [])

/-- The reshuffle worklist collected by the maintenance sweep. -/
def Groups.reshuffle_worklist (st : Groups) : List Int :=
  st.sweepPhase1.2

/-- Consume the next shuffled pool from the oracle (the sequence of outcomes
of the `random.shuffle` calls). -/
def takeShuffle (shuffles : List (List MemberNode)) :
    List MemberNode × List (List MemberNode) :=
  match shuffles with
  | [] => ([], [])
  | s :: ss => (s, ss)

/-- The pairwise reshuffle loop of `condition_checker`
(`for i in range(len(L)-1)`): reshuffle element `i` with element `i+1`,
feeding the result back (ids are unchanged by a reshuffle, so the embedding
threads only the state).  A `(False, None, None)` return would make the
two-name unpacking raise `ValueError`; an empty pool raises `IndexError`. -/
def Groups.reshufflePairs (st : Groups) (L : List Int)
    (shuffles : List (List MemberNode)) :
    Except String (Groups × List (List MemberNode)) :=
  match L with
  | a :: b :: rest =>
    let t := takeShuffle shuffles
    match st.reshuffle a b t.1 with
    | ReshuffleResult.ok st2 => Groups.reshufflePairs st2 (b :: rest) t.2
    | ReshuffleResult.indexError => Except.error "IndexError"
    | ReshuffleResult.notFound => Except.error "ValueError"
  | _ => Except.ok (st, shuffles)

/-- Embedding of `Groups.condition_checker`: classify, remove the low-rated malformed full
groups and collect the low-rated well-formed ones (`sweepPhase1`), reshuffle
the worklist pairwise, then — reaching `L[0]` and `L[-1]`, which indexes into
an empty list and raises `IndexError` when the worklist is empty, and skips
the wraparound when the two are the same node — reshuffle last with first,
and finally run the merge-eligibility sweep. -/
def Groups.condition_checker (st : Groups)
    (shuffles : List (List MemberNode)) : Except String Groups :=
  let p := st.sweepPhase1
  match p.1.reshufflePairs p.2 shuffles with
  | Except.error e => Except.error e
  | Except.ok q =>
    match p.2 with
    | [] => Except.error "IndexError"
    | [_] => Except.ok q.1.possible_merging
    | a :: b :: rest =>
      let t := takeShuffle q.2
      match q.1.reshuffle ((b :: rest).getLastD b) a t.1 with
      | ReshuffleResult.ok st3 => Except.ok st3.possible_merging
      | ReshuffleResult.indexError => Except.error "IndexError"
      | ReshuffleResult.notFound => Except.error "ValueError"

/-- The roster currently held by the group with the given id (empty roster
when the id is absent); read-only accessor used to state theorems. -/
def rosterOf (st : Groups) (gid : Int) : Member :=
  match st.search_group_id gid with
  | some g => g.member_list
  | none => Member.emptyList

/-- Whether a directory operation ended in a raised Python exception. -/
def raised (e : Except String Groups) : Bool :=
  match e with
  | Except.error _ => true
  | Except.ok _ => false

/-- Directory with two single-member groups whose combined composition
(2 high, 0 mid, 0 low) fails the 2/3/2 merge check. -/
def stTwoHigh : Groups :=
  { Groups.init "English" with groups :=
      [{ mkGroupListNode 1 with member_list := Member.emptyList.add_member "Ann" 85 "English" 1 },
       { mkGroupListNode 2 with member_list := Member.emptyList.add_member "Ben" 90 "English" 2 }] }

/-- Directory with a 4-member group (1 high, 2 mid, 1 low) and a 3-member
group (1 high, 1 mid, 1 low): the combined composition is exactly 2/3/2, so
merging them succeeds. -/
def stMergeable : Groups :=
  { Groups.init "English" with groups :=
      [{ mkGroupListNode 1 with member_list :=
          (((Member.emptyList.add_member "Amanda" 85 "English" 1).add_member
            "Deborah" 65 "English" 2).add_member
            "Emma" 70 "English" 3).add_member "Fathima" 30 "English" 4 },
       { mkGroupListNode 2 with member_list :=
          ((Member.emptyList.add_member "Bethany" 90 "English" 5).add_member
            "Yogini" 45 "English" 6).add_member "Geetha" 30 "English" 7 }] }

/-- Directory with one group (id 1) holding the single member with id 10. -/
def stOneGroup : Groups :=
  { Groups.init "English" with groups :=
      [{ mkGroupListNode 1 with member_list :=
          Member.emptyList.add_member "Solo" 50 "English" 10 }] }

/-- An empty directory. -/
def stEmptyDir : Groups := Groups.init "English"

/-- A full 2/3/2 roster (2 high, 3 mid, 2 low, added in formation order). -/
def rosterFull : Member :=
  ((((((Member.emptyList.add_member "Amanda" 85 "English" 1).add_member
    "Bethany" 90 "English" 2).add_member
    "Deborah" 65 "English" 4).add_member
    "Emma" 70 "English" 5).add_member
    "Yogini" 45 "English" 6).add_member
    "Fathima" 30 "English" 7).add_member "Geetha" 30 "English" 8

/-- Group node 1 of the reshuffle witness state: a full 2/3/2 group. -/
def gRes1 : GroupListNode :=
  { mkGroupListNode 1 with member_list := rosterFull }

/-- Group node 2 of the reshuffle witness state: an empty group. -/
def gRes2 : GroupListNode := mkGroupListNode 2

/-- Directory holding `gRes1` and `gRes2`. -/
def stReshuffle : Groups :=
  { Groups.init "English" with groups := [gRes1, gRes2] }

/-- The member pool `reshuffle` collects from `stReshuffle`'s two groups
(group 1's members followed by group 2's), used unpermuted as one of the
permutations `random.shuffle` may produce. -/
def poolReshuffle : List MemberNode :=
  gRes1.member_list.members ++ gRes2.member_list.members

/-- Directory whose waiting queues hold exactly 2 high, 3 mid and 2 low
students. -/
def stExactQueues : Groups :=
  { Groups.init "English" with
      waiting_list_high := [⟨1, "Amanda", 85, "English"⟩, ⟨2, "Bethany", 90, "English"⟩]
      waiting_list_mid := [⟨4, "Deborah", 65, "English"⟩, ⟨5, "Emma", 70, "English"⟩,
        ⟨6, "Yogini", 45, "English"⟩]
      waiting_list_low := [⟨7, "Fathima", 30, "English"⟩, ⟨8, "Geetha", 30, "English"⟩] }

/-- Directory whose waiting queues hold 1 high, 5 mid and 2 low students:
too few high students to form a group. -/
def stShortQueues : Groups :=
  { Groups.init "English" with
      waiting_list_high := [⟨1, "Amanda", 85, "English"⟩]
      waiting_list_mid := [⟨4, "Deborah", 65, "English"⟩, ⟨5, "Emma", 70, "English"⟩,
        ⟨6, "Yogini", 45, "English"⟩, ⟨12, "Sarah", 70, "English"⟩,
        ⟨13, "Michael", 60, "English"⟩]
      waiting_list_low := [⟨7, "Fathima", 30, "English"⟩, ⟨8, "Geetha", 30, "English"⟩] }

/-! ### Helper lemmas -/

theorem countLabel_nil (lab : Label) : countLabel [] lab = 0 := rfl

theorem countLabel_cons (x : MemberNode) (l : List MemberNode) (lab : Label) :
    countLabel (x :: l) lab = countLabel l lab + (if x.label = lab then 1 else 0) := by
  simp [countLabel, List.countP_cons]

theorem countLabel_append (l1 l2 : List MemberNode) (lab : Label) :
    countLabel (l1 ++ l2) lab = countLabel l1 lab + countLabel l2 lab := by
  simp [countLabel, List.countP_append]

theorem countLabel_reverse (l : List MemberNode) (lab : Label) :
    countLabel l.reverse lab = countLabel l lab := by
  simp [countLabel, List.countP_reverse]

theorem countLabel_le_length (l : List MemberNode) (lab : Label) :
    countLabel l lab ≤ l.length := List.countP_le_length _

theorem length_eq_sum_countLabel (l : List MemberNode) :
    l.length = countLabel l Label.low + countLabel l Label.mid + countLabel l Label.high := by
  induction l with
  | nil => rfl
  | cons x rest ih =>
    rw [List.length_cons, countLabel_cons, countLabel_cons, countLabel_cons, ih]
    cases h : x.label <;> simp [h] <;> omega

theorem add_member_members (ml : Member) (n : String) (mk : ℚ) (lang : String) (sid : Int) :
    (ml.add_member n mk lang sid).members = ml.members ++ [⟨n, mk, lang, sid⟩] := rfl

theorem add_member_number (ml : Member) (n : String) (mk : ℚ) (lang : String) (sid : Int) :
    (ml.add_member n mk lang sid).number_of_members = ml.number_of_members + 1 := rfl

theorem distributeLoop_length (l : List MemberNode) (m1 m2 : Member) (cl cm ch : Nat) :
    (distributeLoop l m1 m2 cl cm ch).1.members.length +
      (distributeLoop l m1 m2 cl cm ch).2.members.length =
    m1.members.length + m2.members.length + l.length := by
  induction l generalizing m1 m2 cl cm ch with
  | nil => simp [distributeLoop]
  | cons x rest ih =>
    unfold distributeLoop
    split_ifs <;> rw [ih] <;> simp [Member.add_member] <;> omega

theorem distributeLoop_counts (l : List MemberNode) (m1 m2 : Member) (cl cm ch : Nat)
    (hl : countLabel m1.members Label.low = cl)
    (hm : countLabel m1.members Label.mid = cm)
    (hh : countLabel m1.members Label.high = ch)
    (hcl : cl ≤ 2) (hcm : cm ≤ 3) (hch : ch ≤ 2) :
    countLabel (distributeLoop l m1 m2 cl cm ch).1.members Label.low
        = min 2 (cl + countLabel l Label.low) ∧
    countLabel (distributeLoop l m1 m2 cl cm ch).1.members Label.mid
        = min 3 (cm + countLabel l Label.mid) ∧
    countLabel (distributeLoop l m1 m2 cl cm ch).1.members Label.high
        = min 2 (ch + countLabel l Label.high) := by
  induction l generalizing m1 m2 cl cm ch with
  | nil =>
    simp only [distributeLoop, countLabel_nil, hl, hm, hh]
    omega
  | cons x rest ih =>
    have hnode : (⟨x.name, x.marks, x.preferred_language, x.student_id⟩ : MemberNode) = x := rfl
    unfold distributeLoop
    split_ifs with h1 h2 h3
    · obtain ⟨hx, hlt⟩ := h1
      have := ih (m1.add_member x.name x.marks x.preferred_language x.student_id) m2
        (cl + 1) cm ch
        (by simp [add_member_members, countLabel_append, countLabel_cons, countLabel_nil, hnode, hx, hl])
        (by simp [add_member_members, countLabel_append, countLabel_cons, countLabel_nil, hnode, hx, hm])
        (by simp [add_member_members, countLabel_append, countLabel_cons, countLabel_nil, hnode, hx, hh])
        (by omega) hcm hch
      rw [countLabel_cons, countLabel_cons, countLabel_cons]
      simp [hx] at this ⊢
      omega
    · obtain ⟨hx, hlt⟩ := h2
      have := ih (m1.add_member x.name x.marks x.preferred_language x.student_id) m2
        cl (cm + 1) ch
        (by simp [add_member_members, countLabel_append, countLabel_cons, countLabel_nil, hnode, hx, hl])
        (by simp [add_member_members, countLabel_append, countLabel_cons, countLabel_nil, hnode, hx, hm])
        (by simp [add_member_members, countLabel_append, countLabel_cons, countLabel_nil, hnode, hx, hh])
        hcl (by omega) hch
      rw [countLabel_cons, countLabel_cons, countLabel_cons]
      simp [hx] at this ⊢
      omega
    · obtain ⟨hx, hlt⟩ := h3
      have := ih (m1.add_member x.name x.marks x.preferred_language x.student_id) m2
        cl cm (ch + 1)
        (by simp [add_member_members, countLabel_append, countLabel_cons, countLabel_nil, hnode, hx, hl])
        (by simp [add_member_members, countLabel_append, countLabel_cons, countLabel_nil, hnode, hx, hm])
        (by simp [add_member_members, countLabel_append, countLabel_cons, countLabel_nil, hnode, hx, hh])
        hcl hcm (by omega)
      rw [countLabel_cons, countLabel_cons, countLabel_cons]
      simp [hx] at this ⊢
      omega
    · have := ih m1 (m2.add_member x.name x.marks x.preferred_language x.student_id)
        cl cm ch hl hm hh hcl hcm hch
      rw [countLabel_cons, countLabel_cons, countLabel_cons]
      cases hx : x.label <;> simp [hx] at h1 h2 h3 ⊢ <;> omega

theorem find_updateFirstById_self (l : List GroupListNode) (gid : Int)
    (f : GroupListNode → GroupListNode) (hf : ∀ g, (f g).group_id = g.group_id) :
    (updateFirstById l gid f).find? (fun g => g.group_id == gid) =
      (l.find? (fun g => g.group_id == gid)).map f := by
  induction l with
  | nil => rfl
  | cons g gs ih =>
    unfold updateFirstById
    by_cases h : g.group_id = gid
    · rw [if_pos h, List.find?_cons_of_pos _ (by simp [hf, h]),
        List.find?_cons_of_pos _ (by simp [h])]
      rfl
    · rw [if_neg h, List.find?_cons_of_neg _ (by simp [h]),
        List.find?_cons_of_neg _ (by simp [h]), ih]

theorem find_updateFirstById_other (l : List GroupListNode) (gid gid2 : Int)
    (f : GroupListNode → GroupListNode) (hne : gid2 ≠ gid)
    (hf : ∀ g, (f g).group_id = g.group_id) :
    (updateFirstById l gid f).find? (fun g => g.group_id == gid2) =
      l.find? (fun g => g.group_id == gid2) := by
  induction l with
  | nil => rfl
  | cons g gs ih =>
    unfold updateFirstById
    by_cases h : g.group_id = gid
    · have h2 : ¬ g.group_id = gid2 := by rw [h]; exact fun hc => hne hc.symm
      rw [if_pos h, List.find?_cons_of_neg _ (by simp [hf, h]; exact fun hc => hne hc.symm),
        List.find?_cons_of_neg _ (by simp [h2])]
    · by_cases h3 : g.group_id = gid2
      · rw [if_neg h, List.find?_cons_of_pos _ (by simp [h3]),
          List.find?_cons_of_pos _ (by simp [h3])]
      · rw [if_neg h, List.find?_cons_of_neg _ (by simp [h3]),
          List.find?_cons_of_neg _ (by simp [h3]), ih]

theorem search_updateGroup_self (st : Groups) (gid : Int)
    (f : GroupListNode → GroupListNode) (hf : ∀ g, (f g).group_id = g.group_id) :
    (st.updateGroup gid f).search_group_id gid = (st.search_group_id gid).map f :=
  find_updateFirstById_self st.groups gid f hf

theorem search_updateGroup_other (st : Groups) (gid gid2 : Int)
    (f : GroupListNode → GroupListNode) (hne : gid2 ≠ gid)
    (hf : ∀ g, (f g).group_id = g.group_id) :
    (st.updateGroup gid f).search_group_id gid2 = st.search_group_id gid2 :=
  find_updateFirstById_other st.groups gid gid2 f hne hf

/-- The member node `add_member` builds from a dequeued waiting student. -/
def nodeOfStudent (s : WaitingListNode) : MemberNode :=
  ⟨s.name, s.marks, s.preferred_language, s.student_id⟩

theorem addStudents_members (ss : List WaitingListNode) (ml : Member) :
    (addStudents ml ss).members = ml.members ++ ss.map nodeOfStudent := by
  induction ss generalizing ml with
  | nil => simp [addStudents]
  | cons s rest ih =>
    simp only [addStudents, List.foldl_cons, List.map_cons] at ih ⊢
    rw [ih, add_member_members]
    simp [nodeOfStudent]

theorem addStudents_number (ss : List WaitingListNode) (ml : Member) :
    (addStudents ml ss).number_of_members = ml.number_of_members + ss.length := by
  induction ss generalizing ml with
  | nil => simp [addStudents]
  | cons s rest ih =>
    simp only [addStudents, List.foldl_cons] at ih ⊢
    rw [ih, add_member_number]
    simp
    omega

theorem countLabel_map_students (ss : List WaitingListNode) (lab lab2 : Label)
    (h : ∀ s ∈ ss, labelOf s.marks = lab) :
    countLabel (ss.map nodeOfStudent) lab2 = if lab = lab2 then ss.length else 0 := by
  induction ss with
  | nil => simp [countLabel_nil]
  | cons s rest ih =>
    have hs : (nodeOfStudent s).label = lab := h s (List.mem_cons_self s rest)
    rw [List.map_cons, countLabel_cons, ih (fun x hx => h x (List.mem_cons_of_mem s hx)), hs]
    by_cases he : lab = lab2 <;> simp [he]

theorem fillFirstEmpty_spec (l : List GroupListNode) (fill : Member → Member)
    (gs2 : List GroupListNode) (gg : GroupListNode)
    (h : fillFirstEmpty l fill = some (gs2, gg)) :
    ∃ g, g ∈ l ∧ g.member_list.members = [] ∧
      gg = { g with member_list := fill g.member_list } := by
  induction l generalizing gs2 with
  | nil => exact absurd h (by simp [fillFirstEmpty])
  | cons g gs ih =>
    unfold fillFirstEmpty at h
    by_cases he : g.member_list.is_empty
    · rw [if_pos he] at h
      refine ⟨g, List.mem_cons_self g gs, ?_, ?_⟩
      · simpa [Member.is_empty, List.isEmpty_iff] using he
      · cases h
        rfl
    · rw [if_neg he] at h
      cases hrec : fillFirstEmpty gs fill with
      | none => rw [hrec] at h; exact absurd h (by simp)
      | some p =>
        rw [hrec] at h
        cases h
        obtain ⟨g2, hmem, hempty, heq⟩ := ih p.1 (by rw [hrec])
        exact ⟨g2, List.mem_cons_of_mem g hmem, hempty, heq⟩

theorem mergeSweepInner_id (cid : Int) (s : Groups) (currId : Int) :
    Groups.mergeSweepInner cid s currId = s := by
  unfold Groups.mergeSweepInner
  cases h : s.search_group_id currId with
  | none => rfl
  | some curr =>
    have hne : ¬ doubledSum curr = 7 := by unfold doubledSum; omega
    simp [hne]

theorem foldl_mergeSweepInner (cid : Int) (l : List Int) (s : Groups) :
    l.foldl (Groups.mergeSweepInner cid) s = s := by
  induction l generalizing s with
  | nil => rfl
  | cons a rest ih => rw [List.foldl_cons, mergeSweepInner_id, ih]

theorem sweepFold_id (li : List GroupListNode) (ids l : List Int) (st : Groups) :
    l.foldl
      (fun s cid =>
        if !(idInNodeList cid li) then
          (ids.takeWhile (fun i => !(i == cid))).foldl (Groups.mergeSweepInner cid) s
        else s)
      st = st := by
  induction l generalizing st with
  | nil => rfl
  | cons a rest ih =>
    rw [List.foldl_cons]
    by_cases h : idInNodeList a li
    · simp only [h, Bool.not_true, Bool.false_eq_true, if_false, ite_false]
      exact ih st
    · simp only [h, Bool.not_false, if_pos]
      rw [foldl_mergeSweepInner]
      exact ih st

/-! ### Claim theorems -/

/-- C6: the merge-eligibility sweep never merges any pair of groups — the
reference condition doubles a single group's own tier counts, so it compares
an even number with 7 and can never fire; `possible_merging` maps every
directory state to itself, contradicting the claim that any two Partial
groups whose combined tier counts sum to exactly 7 are merged. -/
theorem possible_merging_merges_no_pair (st : Groups) : st.possible_merging = st := by
  unfold Groups.possible_merging
  exact sweepFold_id _ _ _ st

/-- C8: the tier derived from a score is Low iff the score is below 40, Mid
iff it is in [40, 75), High iff it is at least 75, and `update_marks` leaves
the stored tier equal to the tier derived from the new score. -/
theorem tier_derivation_consistent (s : ℚ) (m : MemberNode) :
    (labelOf s = Label.low ↔ s < 40) ∧
    (labelOf s = Label.mid ↔ 40 ≤ s ∧ s < 75) ∧
    (labelOf s = Label.high ↔ 75 ≤ s) ∧
    (m.update_marks s).label = labelOf s := by
  refine ⟨?_, ?_, ?_, rfl⟩ <;> unfold labelOf <;> split_ifs with h1 h2 <;>
    constructor <;> intro hx <;> first | rfl | linarith | simp_all

/-- C2 fails on the code: `merge_members` splices group 2's roster onto
group 1's before validating the 2/3/2 composition, so a rejected merge (here
two single-high-member rosters, combined counts (2,0,0)) returns failure yet
leaves group 1's roster holding both members instead of its original one. -/
theorem merge_rejection_mutates_roster :
    (stTwoHigh.merge_groups 1 2).toOption.map
      (fun p => (p.2, (rosterOf p.1 1).members, (rosterOf p.1 2).members)) =
    some (false,
      [⟨"Ann", (85 : ℚ), "English", 1⟩, ⟨"Ben", (90 : ℚ), "English", 2⟩],
      [⟨"Ben", (90 : ℚ), "English", 2⟩]) := by decide

/-- C5 fails on the code: after a *successful* `merge_groups` (combined
composition exactly 2/3/2) group 1's roster holds 7 members, yet its
`number_of_members` is still 4 and `count_high` is still 1 while the live
tally of high members is 2 — the counters are not updated by the merge. -/
theorem merge_groups_desyncs_counters :
    (stMergeable.merge_groups 1 2).toOption.map
      (fun p => (p.2, (rosterOf p.1 1).members.length,
        (rosterOf p.1 1).number_of_members, (rosterOf p.1 1).count_high,
        countLabel (rosterOf p.1 1).members Label.high)) =
    some (true, 7, 4, 1, 2) := by decide

/-- C7 fails on the code: `Groups.delete_member` dereferences the result of
the group search and of the member search without a `None` check, so an
unknown group id (2) or an unknown member id (99) raises `AttributeError`
instead of failing silently. -/
theorem delete_member_raises_on_absent :
    raised (stOneGroup.delete_member 2 10) = true ∧
    raised (stOneGroup.delete_member 1 99) = true :=
  ⟨rfl, rfl⟩

/-- C9 counterexample: on the non-empty queue state holding Dana, enqueuing
students 1, 2, 3 and dequeuing three times does not yield students 1, 2, 3 —
the first dequeue returns Dana — so the claim's "for every queue state"
quantification fails. -/
theorem queue_fifo_any_state_counterexample :
    ¬ (let q0 : WaitingList := [⟨4, "Dana", (50 : ℚ), "English"⟩]
       let q1 := q0.enqueue 1 "Ama" 90 "English"
       let q2 := q1.enqueue 2 "Bel" 60 "English"
       let q3 := q2.enqueue 3 "Cat" 30 "English"
       let d1 := q3.dequeue
       let d2 := d1.2.dequeue
       let d3 := d2.2.dequeue
       d1.1 = some ⟨1, "Ama", (90 : ℚ), "English"⟩ ∧
       d2.1 = some ⟨2, "Bel", (60 : ℚ), "English"⟩ ∧
       d3.1 = some ⟨3, "Cat", (30 : ℚ), "English"⟩) := by decide

/-- C9 (amended): starting from the *empty* queue, enqueuing A, B, C and
dequeuing three times yields A, B, C in order and empties the queue; and in
general dequeue after an enqueue returns the earliest-enqueued remaining
record: the newly enqueued record only when the queue was empty, otherwise
the previous front, with the new record kept at the tail. -/
theorem queue_fifo_amended (a b c n : WaitingListNode) (q : WaitingList) :
    (let q1 := WaitingList.enqueue [] a.student_id a.name a.marks a.preferred_language
     let q2 := q1.enqueue b.student_id b.name b.marks b.preferred_language
     let q3 := q2.enqueue c.student_id c.name c.marks c.preferred_language
     let d1 := q3.dequeue
     let d2 := d1.2.dequeue
     let d3 := d2.2.dequeue
     d1.1 = some a ∧ d2.1 = some b ∧ d3.1 = some c ∧ d3.2 = []) ∧
    WaitingList.dequeue (q.enqueue n.student_id n.name n.marks n.preferred_language) =
      if q = [] then (some n, [])
      else ((WaitingList.dequeue q).1, (WaitingList.dequeue q).2 ++ [n]) := by
  constructor
  · simp [WaitingList.enqueue, WaitingList.dequeue]
  · cases q <;> simp [WaitingList.enqueue, WaitingList.dequeue]

/-- C4: when the waiting queues hold fewer than 2 high, fewer than 3 mid, or
fewer than 2 low students, `create_new_group` returns the "not formed"
signal and the state — queues (length and order) and group list — is exactly
the one it was called on. -/
theorem formation_insufficient_is_noop (st : Groups)
    (h : st.waiting_list_high.length < 2 ∨ st.waiting_list_mid.length < 3 ∨
      st.waiting_list_low.length < 2) :
    st.create_new_group = (st, none) := by
  simp only [Groups.create_new_group]
  rw [if_neg (by omega)]

/-- Witness for C4 at queues holding 1 high, 5 mid and 2 low students. -/
theorem formation_insufficient_is_noop_witness :
    (stShortQueues.waiting_list_high.length < 2 ∨
      stShortQueues.waiting_list_mid.length < 3 ∨
      stShortQueues.waiting_list_low.length < 2) ∧
    stShortQueues.create_new_group = (stShortQueues, none) :=
  ⟨by decide, formation_insufficient_is_noop stShortQueues (by decide)⟩

/-- C10: whenever the reshuffle worklist collected by the maintenance sweep
is empty (no full group with exact 2/3/2 composition rates below 2), the
wraparound check `L[0] != L[-1]` indexes into the empty worklist and
`condition_checker` raises `IndexError` instead of completing. -/
theorem condition_checker_empty_worklist_raises (st : Groups)
    (shuffles : List (List MemberNode)) (h : st.reshuffle_worklist = []) :
    st.condition_checker shuffles = Except.error "IndexError" := by
  unfold Groups.reshuffle_worklist at h
  simp only [Groups.condition_checker]
  rcases hsp : st.sweepPhase1 with ⟨st1, L⟩
  rw [hsp] at h
  simp only at h
  subst h
  simp [Groups.reshufflePairs]

/-- Witness for C10: on the empty directory the worklist is empty and the
maintenance sweep raises. -/
theorem condition_checker_empty_worklist_raises_witness :
    stEmptyDir.reshuffle_worklist = [] ∧
    stEmptyDir.condition_checker [] = Except.error "IndexError" :=
  ⟨by decide, condition_checker_empty_worklist_raises stEmptyDir [] (by decide)⟩

/-- Setting the roster of a group node preserves its id. -/
theorem setRoster_group_id (ml : Member) (g : GroupListNode) :
    ((fun g : GroupListNode => { g with member_list := ml }) g).group_id = g.group_id := rfl

theorem search_double_update (st : Groups) (id1 id2 : Int) (g1 g2 : GroupListNode)
    (ml1 ml2 : Member) (hne : id1 ≠ id2)
    (h1 : st.search_group_id id1 = some g1) (h2 : st.search_group_id id2 = some g2) :
    ((st.updateGroup id1 (fun g => { g with member_list := ml1 })).updateGroup id2
        (fun g => { g with member_list := ml2 })).search_group_id id1 =
      some { g1 with member_list := ml1 } ∧
    ((st.updateGroup id1 (fun g => { g with member_list := ml1 })).updateGroup id2
        (fun g => { g with member_list := ml2 })).search_group_id id2 =
      some { g2 with member_list := ml2 } := by
  constructor
  · rw [search_updateGroup_other _ id2 id1 (fun g => { g with member_list := ml2 })
      hne (setRoster_group_id ml2),
      search_updateGroup_self _ id1 (fun g => { g with member_list := ml1 })
        (setRoster_group_id ml1), h1]
    rfl
  · rw [search_updateGroup_self _ id2 (fun g => { g with member_list := ml2 })
      (setRoster_group_id ml2),
      search_updateGroup_other _ id1 id2 (fun g => { g with member_list := ml1 })
        (Ne.symm hne) (setRoster_group_id ml1), h2]
    rfl

/-- C1: reshuffling two existing (distinct) groups whose combined pool —
under any permutation `random.shuffle` may produce — contains at least
2 high, 3 mid and 2 low members leaves group A with exactly 2 high, 3 mid
and 2 low members (size exactly 7), and the total member count across the
two groups equals the total before the reshuffle. -/
theorem reshuffle_restores_quota (st : Groups) (id1 id2 : Int)
    (g1 g2 : GroupListNode) (shuffled : List MemberNode)
    (hne : id1 ≠ id2)
    (h1 : st.search_group_id id1 = some g1)
    (h2 : st.search_group_id id2 = some g2)
    (hperm : shuffled.Perm (g1.member_list.members ++ g2.member_list.members))
    (hH : 2 ≤ countLabel shuffled Label.high)
    (hM : 3 ≤ countLabel shuffled Label.mid)
    (hL : 2 ≤ countLabel shuffled Label.low) :
    ∃ st2 g1x g2x,
      st.reshuffle id1 id2 shuffled = ReshuffleResult.ok st2 ∧
      st2.search_group_id id1 = some g1x ∧
      st2.search_group_id id2 = some g2x ∧
      countLabel g1x.member_list.members Label.high = 2 ∧
      countLabel g1x.member_list.members Label.mid = 3 ∧
      countLabel g1x.member_list.members Label.low = 2 ∧
      g1x.member_list.members.length = 7 ∧
      g1x.member_list.members.length + g2x.member_list.members.length =
        g1.member_list.members.length + g2.member_list.members.length := by
  have hlen : 2 ≤ shuffled.length := le_trans hH (countLabel_le_length _ _)
  have hcounts := distributeLoop_counts shuffled.reverse Member.emptyList Member.emptyList
    0 0 0 rfl rfl rfl (by omega) (by omega) (by omega)
  rw [countLabel_reverse, countLabel_reverse, countLabel_reverse] at hcounts
  obtain ⟨hclow, hcmid, hchigh⟩ := hcounts
  have hlow2 : countLabel (distributeLoop shuffled.reverse Member.emptyList
      Member.emptyList 0 0 0).1.members Label.low = 2 := by rw [hclow]; omega
  have hmid3 : countLabel (distributeLoop shuffled.reverse Member.emptyList
      Member.emptyList 0 0 0).1.members Label.mid = 3 := by rw [hcmid]; omega
  have hhigh2 : countLabel (distributeLoop shuffled.reverse Member.emptyList
      Member.emptyList 0 0 0).1.members Label.high = 2 := by rw [hchigh]; omega
  have hlen1 : (distributeLoop shuffled.reverse Member.emptyList
      Member.emptyList 0 0 0).1.members.length = 7 := by
    rw [length_eq_sum_countLabel, hlow2, hmid3, hhigh2]
  have htot := distributeLoop_length shuffled.reverse Member.emptyList Member.emptyList 0 0 0
  rw [List.length_reverse] at htot
  have hz : Member.emptyList.members.length = 0 := rfl
  rw [hz] at htot
  obtain ⟨x, rest, hx⟩ : ∃ x rest, shuffled = x :: rest := by
    cases shuffled with
    | nil => simp at hlen
    | cons x rest => exact ⟨x, rest, rfl⟩
  have hred : st.reshuffle id1 id2 shuffled = ReshuffleResult.ok
      ((st.updateGroup id1 (fun g => { g with member_list :=
          (distributeLoop shuffled.reverse Member.emptyList Member.emptyList 0 0 0).1 })).updateGroup
        id2 (fun g => { g with member_list :=
          (distributeLoop shuffled.reverse Member.emptyList Member.emptyList 0 0 0).2 })) := by
    rw [hx]
    simp only [Groups.reshuffle, h1, h2]
  refine ⟨_,
    { g1 with member_list :=
        (distributeLoop shuffled.reverse Member.emptyList Member.emptyList 0 0 0).1 },
    { g2 with member_list :=
        (distributeLoop shuffled.reverse Member.emptyList Member.emptyList 0 0 0).2 },
    hred, ?_, ?_, hhigh2, hmid3, hlow2, hlen1, ?_⟩
  · exact (search_double_update st id1 id2 g1 g2 _ _ hne h1 h2).1
  · exact (search_double_update st id1 id2 g1 g2 _ _ hne h1 h2).2
  · have hplen := hperm.length_eq
    rw [List.length_append] at hplen
    show (distributeLoop shuffled.reverse Member.emptyList Member.emptyList 0 0 0).1.members.length +
        (distributeLoop shuffled.reverse Member.emptyList Member.emptyList 0 0 0).2.members.length =
      g1.member_list.members.length + g2.member_list.members.length
    omega

/-- Witness for C1: reshuffling the full 2/3/2 group 1 with the empty
group 2 of `stReshuffle`, with the identity permutation of the pool. -/
theorem reshuffle_restores_quota_witness :
    ∃ st2 g1x g2x,
      stReshuffle.reshuffle 1 2 poolReshuffle = ReshuffleResult.ok st2 ∧
      st2.search_group_id 1 = some g1x ∧
      st2.search_group_id 2 = some g2x ∧
      countLabel g1x.member_list.members Label.high = 2 ∧
      countLabel g1x.member_list.members Label.mid = 3 ∧
      countLabel g1x.member_list.members Label.low = 2 ∧
      g1x.member_list.members.length = 7 ∧
      g1x.member_list.members.length + g2x.member_list.members.length =
        gRes1.member_list.members.length + gRes2.member_list.members.length :=
  reshuffle_restores_quota stReshuffle 1 2 gRes1 gRes2 poolReshuffle
    (by decide) (by decide) (by decide) (List.Perm.refl _)
    (by decide) (by decide) (by decide)

theorem addSeven_spec (ml : Member) (highs mids lows : List WaitingListNode)
    (hm : ml.members = []) (hn : ml.number_of_members = 0)
    (hhlen : highs.length = 2) (hmlen : mids.length = 3) (hllen : lows.length = 2)
    (hhlab : ∀ s ∈ highs, labelOf s.marks = Label.high)
    (hmlab : ∀ s ∈ mids, labelOf s.marks = Label.mid)
    (hllab : ∀ s ∈ lows, labelOf s.marks = Label.low) :
    (addSeven ml highs mids lows).members.length = 7 ∧
    countLabel (addSeven ml highs mids lows).members Label.high = 2 ∧
    countLabel (addSeven ml highs mids lows).members Label.mid = 3 ∧
    countLabel (addSeven ml highs mids lows).members Label.low = 2 ∧
    (addSeven ml highs mids lows).number_of_members = 7 := by
  have hmem : (addSeven ml highs mids lows).members =
      (highs.map nodeOfStudent ++ mids.map nodeOfStudent) ++ lows.map nodeOfStudent := by
    unfold addSeven
    rw [addStudents_members, addStudents_members, addStudents_members, hm]
    simp
  have hnum : (addSeven ml highs mids lows).number_of_members = 7 := by
    unfold addSeven
    rw [addStudents_number, addStudents_number, addStudents_number, hn,
      hhlen, hmlen, hllen]
    norm_num
  refine ⟨?_, ?_, ?_, ?_, hnum⟩
  · rw [hmem]
    simp [hhlen, hmlen, hllen]
  · rw [hmem, countLabel_append, countLabel_append,
      countLabel_map_students highs Label.high Label.high hhlab,
      countLabel_map_students mids Label.mid Label.high hmlab,
      countLabel_map_students lows Label.low Label.high hllab]
    simp [hhlen]
  · rw [hmem, countLabel_append, countLabel_append,
      countLabel_map_students highs Label.high Label.mid hhlab,
      countLabel_map_students mids Label.mid Label.mid hmlab,
      countLabel_map_students lows Label.low Label.mid hllab]
    simp [hmlen]
  · rw [hmem, countLabel_append, countLabel_append,
      countLabel_map_students highs Label.high Label.low hhlab,
      countLabel_map_students mids Label.mid Label.low hmlab,
      countLabel_map_students lows Label.low Label.low hllab]
    simp [hllen]

/-- C3: when the waiting queues hold exactly 2 high, 3 mid and 2 low
students (each queued in the tier its marks derive), `create_new_group`
returns a formed group whose roster holds exactly 7 members with tier tally
(2, 3, 2), and all three waiting queues are empty afterwards.  States are
assumed to satisfy the data-model counter invariant (`Member.wellFormed`)
so that a reused vacant group really reports zero members. -/
theorem formation_exact_queues (st : Groups)
    (hwf : ∀ g ∈ st.groups, g.member_list.wellFormed)
    (hhlen : st.waiting_list_high.length = 2)
    (hmlen : st.waiting_list_mid.length = 3)
    (hllen : st.waiting_list_low.length = 2)
    (hhlab : ∀ s ∈ st.waiting_list_high, labelOf s.marks = Label.high)
    (hmlab : ∀ s ∈ st.waiting_list_mid, labelOf s.marks = Label.mid)
    (hllab : ∀ s ∈ st.waiting_list_low, labelOf s.marks = Label.low) :
    ∃ st2 g, st.create_new_group = (st2, some g) ∧
      g.member_list.members.length = 7 ∧
      countLabel g.member_list.members Label.high = 2 ∧
      countLabel g.member_list.members Label.mid = 3 ∧
      countLabel g.member_list.members Label.low = 2 ∧
      st2.waiting_list_high = [] ∧ st2.waiting_list_mid = [] ∧
      st2.waiting_list_low = [] := by
  have htakeh : st.waiting_list_high.take 2 = st.waiting_list_high := by
    rw [← hhlen]; exact List.take_length _
  have htakem : st.waiting_list_mid.take 3 = st.waiting_list_mid := by
    rw [← hmlen]; exact List.take_length _
  have htakel : st.waiting_list_low.take 2 = st.waiting_list_low := by
    rw [← hllen]; exact List.take_length _
  have hdroph : st.waiting_list_high.drop 2 = [] := by
    rw [← hhlen]; exact List.drop_length _
  have hdropm : st.waiting_list_mid.drop 3 = [] := by
    rw [← hmlen]; exact List.drop_length _
  have hdropl : st.waiting_list_low.drop 2 = [] := by
    rw [← hllen]; exact List.drop_length _
  simp only [Groups.create_new_group]
  rw [if_pos (by omega)]
  rw [htakeh, htakem, htakel, hdroph, hdropm, hdropl]
  rcases hfe : fillFirstEmpty st.groups
      (fun ml => addSeven ml st.waiting_list_high st.waiting_list_mid st.waiting_list_low)
    with _ | ⟨gs2, gg⟩
  · -- no vacant group: a fresh node is appended and filled
    obtain ⟨hL, hH2, hM3, hL2, hN⟩ := addSeven_spec Member.emptyList
      st.waiting_list_high st.waiting_list_mid st.waiting_list_low rfl rfl
      hhlen hmlen hllen hhlab hmlab hllab
    split_ifs with hcond
    · exact absurd hN hcond
    · exact ⟨_, _, rfl, hL, hH2, hM3, hL2, rfl, rfl, rfl⟩
  · -- a vacant group is reused
    obtain ⟨g, hg, hgempty, hgg⟩ := fillFirstEmpty_spec st.groups _ gs2 gg hfe
    obtain ⟨hcl, hcm, hch, hnum0⟩ := hwf g hg
    rw [hgempty] at hcl hcm hch
    rw [countLabel_nil] at hcl hcm hch
    have hn0 : g.member_list.number_of_members = 0 := by
      rw [hnum0, hcl, hcm, hch]; rfl
    obtain ⟨hL, hH2, hM3, hL2, hN⟩ := addSeven_spec g.member_list
      st.waiting_list_high st.waiting_list_mid st.waiting_list_low hgempty hn0
      hhlen hmlen hllen hhlab hmlab hllab
    have hggml : gg.member_list = addSeven g.member_list
        st.waiting_list_high st.waiting_list_mid st.waiting_list_low := by
      rw [hgg]
    have hggn : gg.member_list.number_of_members = 7 := by rw [hggml]; exact hN
    split_ifs with hcond
    · exact absurd hggn hcond
    · exact ⟨_, _, rfl,
        (by show gg.member_list.members.length = 7; rw [hggml]; exact hL),
        (by show countLabel gg.member_list.members Label.high = 2; rw [hggml]; exact hH2),
        (by show countLabel gg.member_list.members Label.mid = 3; rw [hggml]; exact hM3),
        (by show countLabel gg.member_list.members Label.low = 2; rw [hggml]; exact hL2),
        rfl, rfl, rfl⟩

/-- Witness for C3 at `stExactQueues` (no groups yet, queues exactly 2/3/2). -/
theorem formation_exact_queues_witness :
    ∃ st2 g, stExactQueues.create_new_group = (st2, some g) ∧
      g.member_list.members.length = 7 ∧
      countLabel g.member_list.members Label.high = 2 ∧
      countLabel g.member_list.members Label.mid = 3 ∧
      countLabel g.member_list.members Label.low = 2 ∧
      st2.waiting_list_high = [] ∧ st2.waiting_list_mid = [] ∧
      st2.waiting_list_low = [] :=
  formation_exact_queues stExactQueues
    (by intro g hg; simp [stExactQueues, Groups.init] at hg)
    (by decide) (by decide) (by decide) (by decide) (by decide) (by decide)
